import Mathlib

/-!
The `import` and `enable` commands of volt.

A shallow embedding of `cmd/import.go` and `cmd/enable.go`.

The two commands are sequential Go code that talks to the outside through
a handful of calls: `os.Stat`, `lockjson.Read`, `transaction.Create`,
`transaction.Remove`, `copyutil.CopyDir`, `LockJSON.Write`,
`rebuildCmd.doRebuild`, `profileCmd.doAdd`, the `flag` package and the
`pathutil` helpers.  The embedding passes the state of the outside
explicitly (`World`) and records every effectful call in a trace
(`Event`), so that ordering and "is never called" properties are
statements about lists.  Writes to standard output are not recorded.

Calls whose bodies live outside the two files are fields of `Env`; what
the text of the specification fixes about them is modelled directly
(`transaction.Create`, `transaction.Remove`, `lockjson.Read`,
`ProfileList.FindByName`).
-/

namespace Volt

/-! ## Data model -/

/-- The Go type `lockjson.ReposType` is a string type. -/
abbrev ReposType := String

/-- Modelled from the spec: the constant `lockjson.ReposGitType`, the tag of
a repository under version control; its declaration is in package
`lockjson`, which the two files only use. -/
def ReposGitType : ReposType := "git"

/-- Modelled from the spec: the constant `lockjson.ReposStaticType`, the tag
of a repository that is a plain directory; declared in package `lockjson`. -/
def ReposStaticType : ReposType := "static"

/-- The record `lockjson.Repos` with the three fields `doImport` fills in
(the Go field `Type` is written `Typ`). -/
structure Repos where
  Typ : ReposType
  TrxID : Int
  Path : String
deriving DecidableEq, Repr

/-- The record `lockjson.Profile`: the fields `doImport` reads and writes. -/
structure Profile where
  Name : String
  ReposPath : List String
deriving DecidableEq, Repr

/-- The record `lockjson.LockJSON`: the fields `doImport` reads and writes.
`TrxID` is a Go `int64`: an integer between -2^63 and 2^63 - 1, on which
arithmetic wraps (`int64`). -/
structure LockJSON where
  TrxID : Int
  ActiveProfile : String
  Repos : List Repos
  Profiles : List Profile
deriving DecidableEq, Repr

/-- Modelled from the spec: the counter is an integer, which package
`lockjson` declares with Go's type `int64`.  `int64 x` is the value a
64-bit signed variable holds after a computation whose exact result is
`x`: the result is reduced modulo 2^64 into the range from -2^63 to
2^63 - 1. -/
def int64 (x : Int) : Int :=
  (x + 9223372036854775808) % 18446744073709551616 - 9223372036854775808

/-- The file system as the code observes it: `isNotExist p` is the value of
`os.IsNotExist(err)` for the `err` that `os.Stat(p)` returns.  Both files
use `os.Stat` in no other way. -/
structure FS where
  isNotExist : String → Bool

/-- The state outside the process: the file tree, what `lockjson.Read`
finds on disk, and whether the transaction marker exists. -/
structure World where
  fs : FS
  lockFile : Except String LockJSON
  trxLock : Bool

/-- One effectful call made by a command, in the order of execution. -/
inductive Event where
  | read
  | trxCreate (ok : Bool)
  | trxRemove
  | copyDir (frm dst : String)
  | write (l : LockJSON)
  | rebuild
  | doAdd (args : List String)
deriving DecidableEq, Repr

/-- What `fs.Parse(args)` leaves behind for a flag set: the positional
arguments `fs.Args()` and whether `fs.Usage` ran while parsing. -/
structure FlagResult where
  args : List String
  helped : Bool
deriving DecidableEq, Repr

/-- The collaborators whose bodies are outside the two files.  A Go result
`(value, error)` is a pair whose second component is `none` for `nil`. -/
structure Env where
  flagParse : List String → FlagResult
  NormalizeRepos : String → String × Option String
  NormalizeImportedRepos : String → String × Option String
  FullReposPathOf : String → String
  VimVoltDir : String
  Join : String → String → String
  CopyDir : String → String → FS → Option String × FS
  Write : LockJSON → Except String LockJSON → Option String × Except String LockJSON
  doRebuild : Except String LockJSON → FS → Option String × FS
  doAdd : List String → World → Option String × World

/-- The result of `doImport`: the returned error (`none` for `nil`), the
state left outside and the calls made. -/
structure Outcome where
  err : Option String
  world : World
  trace : List Event

/-- The result of a command: its exit code, the state left outside and the
calls made. -/
structure Exit where
  code : Int
  world : World
  trace : List Event

/-- The errors `enableCmd.parseArgs` can return: the sentinel
`ErrShowedHelp`, compared by identity in `Enable`, or any other error. -/
inductive CmdError where
  | ErrShowedHelp
  | other (msg : String)
deriving DecidableEq, Repr

/-! ## Collaborators fixed by the specification -/

/-- Modelled from the spec: `lockjson.Read`, the manifest store's `load()`,
which parses the persisted representation and fails if it is unreadable. -/
def lockjson.Read (w : World) : Except String LockJSON :=
  w.lockFile

/-- Modelled from the spec: `transaction.Create`, the guard's `acquire()`,
which "fails with TransactionInProgress if a marker already exists;
otherwise creates the marker and succeeds". -/
def transaction.Create (w : World) : Option String × World :=
  if w.trxLock then (some "TransactionInProgress", w)
  else (none, { w with trxLock := true })

/-- Modelled from the spec: `transaction.Remove`, the guard's `release()`,
which "removes the marker unconditionally". -/
def transaction.Remove (w : World) : World :=
  { w with trxLock := false }

/-- Modelled from the spec: `ProfileList.FindByName`, the registry's
`findProfile`, which fails "if no profile has that name".  The Go method
returns a pointer into the list; here it is the position of the first
profile of that name together with the profile. -/
def ProfileList.FindByName : List Profile → String → Except String (Nat × Profile)
  | [], name => .error ("profile not found: " ++ name)
  | p :: ps, name =>
    if p.Name = name then .ok (0, p)
    else match ProfileList.FindByName ps name with
      | .ok (i, q) => .ok (i + 1, q)
      | .error e => .error e

/-- Modelled from the spec: `ReposPath.Contains`, membership of an
identifier in a profile's list. -/
def ReposPathList.Contains (l : List String) (reposPath : String) : Bool :=
  l.contains reposPath

/-! ## `cmd/import.go` -/

/-- The method `importCmd.detectReposType`. -/
def importCmd.detectReposType (env : Env) (fs : FS) (fullpath : String) :
    ReposType × Option String :=
  if fs.isNotExist fullpath then
    ("", some ("no such a directory: " ++ fullpath))
  else if !(fs.isNotExist (env.Join fullpath ".git")) then
    (ReposGitType, none)
  else
    (ReposStaticType, none)

/-- Lines 119 to 122 of `doImport`: the identifier is appended to the
profile's list unless the list contains it. -/
def addToProfile (profile : Profile) (reposPath : String) : Profile :=
  if !(ReposPathList.Contains profile.ReposPath reposPath) then
    { profile with ReposPath := profile.ReposPath ++ [reposPath] }
  else
    profile

/-- The part of `importCmd.doImport` that runs after
`defer transaction.Remove()` was registered, lines 94 to 136. -/
def importCmd.doImportGuarded (env : Env) (w : World) (lockJSON : LockJSON)
    (frm dst reposPath : String) : Outcome :=
  let lockJSON := { lockJSON with TrxID := int64 (lockJSON.TrxID + 1) }
  match env.CopyDir frm dst w.fs with
  | (some e, fs1) => ⟨some e, { w with fs := fs1 }, [.copyDir frm dst]⟩
  | (none, fs1) =>
    let w1 : World := { w with fs := fs1 }
    match ProfileList.FindByName lockJSON.Profiles lockJSON.ActiveProfile with
    | .error e => ⟨some e, w1, [.copyDir frm dst]⟩
    | .ok (i, profile) =>
      let reposType := (importCmd.detectReposType env w1.fs dst).1
      let lockJSON := { lockJSON with
        Repos := lockJSON.Repos ++ [Repos.mk reposType lockJSON.TrxID reposPath] }
      let lockJSON := { lockJSON with
        Profiles := lockJSON.Profiles.set i (addToProfile profile reposPath) }
      match env.Write lockJSON w1.lockFile with
      | (some e, d) =>
        ⟨some ("could not write to lock.json: " ++ e), { w1 with lockFile := d },
          [.copyDir frm dst, .write lockJSON]⟩
      | (none, d) =>
        let w2 : World := { w1 with lockFile := d }
        match env.doRebuild w2.lockFile w2.fs with
        | (some e, fs2) =>
          ⟨some ("could not rebuild " ++ env.VimVoltDir ++ ": " ++ e),
            { w2 with fs := fs2 }, [.copyDir frm dst, .write lockJSON, .rebuild]⟩
        | (none, fs2) =>
          ⟨none, { w2 with fs := fs2 }, [.copyDir frm dst, .write lockJSON, .rebuild]⟩

/-- The method `importCmd.doImport`.  The deferred `transaction.Remove()`
runs when the guarded part returns, whatever it returns. -/
def importCmd.doImport (env : Env) (w : World) (frm reposPath : String) : Outcome :=
  if w.fs.isNotExist frm then
    ⟨some ("no such a directory: " ++ frm), w, []⟩
  else
    let dst := env.FullReposPathOf reposPath
    if !(w.fs.isNotExist dst) then
      ⟨some ("the repository already exists: " ++ reposPath), w, []⟩
    else
      match lockjson.Read w with
      | .error e => ⟨some ("could not read lock.json: " ++ e), w, [.read]⟩
      | .ok lockJSON =>
        match transaction.Create w with
        | (some e, w1) =>
          ⟨some ("failed to begin transaction: " ++ e), w1, [.read, .trxCreate false]⟩
        | (none, w1) =>
          let r := importCmd.doImportGuarded env w1 lockJSON frm dst reposPath
          ⟨r.err, transaction.Remove r.world,
            [.read, .trxCreate true] ++ r.trace ++ [.trxRemove]⟩

/-- The method `importCmd.parseArgs`: `(from, reposPath, err)`. -/
def importCmd.parseArgs (env : Env) (args : List String) :
    String × String × Option String :=
  match (env.flagParse args).args with
  | [a] =>
    let r := env.NormalizeRepos a
    (env.FullReposPathOf r.1, r.1, r.2)
  | [a, b] =>
    let r := env.NormalizeImportedRepos b
    (a, r.1, r.2)
  | _ => ("", "", some "invalid arguments")

/-- The function `Import`. -/
def Import (env : Env) (w : World) (args : List String) : Exit :=
  match importCmd.parseArgs env args with
  | (_, _, some _) => ⟨10, w, []⟩
  | (frm, reposPath, none) =>
    let r := importCmd.doImport env w frm reposPath
    match r.err with
    | some _ => ⟨11, r.world, r.trace⟩
    | none => ⟨0, r.world, r.trace⟩

/-! ## `cmd/enable.go` -/

/-- The loop of `enableCmd.parseArgs` that normalizes the arguments in
order and stops at the first failure. -/
def enableCmd.normalizeLoop (env : Env) :
    List String → List String → Except CmdError (List String)
  | [], reposPathList => .ok reposPathList
  | arg :: rest, reposPathList =>
    match env.NormalizeRepos arg with
    | (_, some e) => .error (.other e)
    | (reposPath, none) => enableCmd.normalizeLoop env rest (reposPathList ++ [reposPath])

/-- The method `enableCmd.parseArgs`.  The flag `enableFlags.helped` is
false when the process starts and is set by `fs.Usage`. -/
def enableCmd.parseArgs (env : Env) (args : List String) :
    Except CmdError (List String) :=
  let fs := env.flagParse args
  if fs.helped then .error .ErrShowedHelp
  else if fs.args.length = 0 then .error (.other "repository was not given")
  else enableCmd.normalizeLoop env fs.args []

/-- The function `Enable`. -/
def Enable (env : Env) (w : World) (args : List String) : Exit :=
  match enableCmd.parseArgs env args with
  | .error .ErrShowedHelp => ⟨0, w, []⟩
  | .error (.other _) => ⟨10, w, []⟩
  | .ok reposPathList =>
    match env.doAdd ("-current" :: reposPathList) w with
    | (some _, w1) => ⟨11, w1, [.doAdd ("-current" :: reposPathList)]⟩
    | (none, w1) => ⟨0, w1, [.doAdd ("-current" :: reposPathList)]⟩

/-! ## A concrete environment

Instances of the collaborators, used to run the commands on explicit
inputs. -/

/-- A flag parser for a flag set without flags, after Go package `flag`:
parsing stops at the first argument; `--` is dropped, any other argument
that starts with `-` and has a second character is an unknown flag, for
which `Usage` runs. -/
def Sample.flagParse : List String → FlagResult
  | [] => ⟨[], false⟩
  | s :: rest =>
    match s.data with
    | ['-', '-'] => ⟨rest, false⟩
    | '-' :: _ :: _ => ⟨rest, true⟩
    | _ => ⟨s :: rest, false⟩

/-- A normalizer that rejects the empty argument and puts the host in front
of any other. -/
def Sample.NormalizeRepos (s : String) : String × Option String :=
  if s = "" then ("", some "invalid format of repository") else ("github.com/" ++ s, none)

/-- A file tree given by the list of the paths that exist. -/
def Sample.fsOf (present : List String) : FS :=
  ⟨fun p => !(present.contains p)⟩

/-- A copy that succeeds and creates the destination, with a `.git` entry
exactly when the source has one. -/
def Sample.CopyDir (frm dst : String) (fs : FS) : Option String × FS :=
  (none, ⟨fun p =>
    if p = dst then false
    else if p = dst ++ "/.git" then fs.isNotExist (frm ++ "/.git")
    else fs.isNotExist p⟩)

/-- An environment in which every collaborator succeeds. -/
def Sample.env : Env where
  flagParse := Sample.flagParse
  NormalizeRepos := Sample.NormalizeRepos
  NormalizeImportedRepos := Sample.NormalizeRepos
  FullReposPathOf := fun reposPath => "/volt/repos/" ++ reposPath
  VimVoltDir := "/vim/pack/volt"
  Join := fun a b => a ++ "/" ++ b
  CopyDir := Sample.CopyDir
  Write := fun l _ => (none, .ok l)
  doRebuild := fun _ fs => (none, fs)
  doAdd := fun _ w => (none, w)

/-- The environment `Sample.env` with a copy that reports success and
leaves the file tree as it was. -/
def Sample.envNoDst : Env :=
  { Sample.env with CopyDir := fun _ _ fs => (none, fs) }

/-- The environment `Sample.env` with a profile-add that fails. -/
def Sample.envAddFails : Env :=
  { Sample.env with doAdd := fun _ w => (some "profile add failed", w) }

/-- A manifest with one repository and the profile `default`. -/
def Sample.lock : LockJSON where
  TrxID := 4
  ActiveProfile := "default"
  Repos := [⟨"git", 3, "github.com/tyru/caw.vim"⟩]
  Profiles := [⟨"default", ["github.com/tyru/caw.vim"]⟩]

/-- A world with a source directory `/src/open-browser.vim` holding a
`.git` entry, no marker, and the manifest `Sample.lock`. -/
def Sample.world : World where
  fs := Sample.fsOf ["/src/open-browser.vim", "/src/open-browser.vim/.git"]
  lockFile := .ok Sample.lock
  trxLock := false

/-- The world `Sample.world` with a manifest whose counter is the largest
`int64`, 2^63 - 1. -/
def Sample.worldMaxTrx : World :=
  { Sample.world with
    lockFile := .ok { Sample.lock with TrxID := 9223372036854775807 } }

/-- The world `Sample.world` with a transaction marker in place. -/
def Sample.worldLocked : World :=
  { Sample.world with trxLock := true }

/-- A world in which the repository `github.com/tyru/caw.vim` exists at its
full repos path, with no marker. -/
def Sample.worldInstalled : World where
  fs := Sample.fsOf ["/volt/repos/github.com/tyru/caw.vim",
    "/volt/repos/github.com/tyru/caw.vim/.git"]
  lockFile := .ok ⟨0, "default", [], [⟨"default", []⟩]⟩
  trxLock := false

/-! ## Theorems -/

/-! ## Lemmas shared by the theorems -/

/-- The two tags of the classifier are different strings. -/
theorem ReposGitType_ne_ReposStaticType : ReposGitType ≠ ReposStaticType := by decide

/-- The calls of the guarded part are a copy, then possibly a write, then
possibly a rebuild. -/
theorem doImportGuarded_trace (env : Env) (w : World) (l : LockJSON)
    (frm dst reposPath : String) :
    (importCmd.doImportGuarded env w l frm dst reposPath).trace = [.copyDir frm dst] ∨
    ∃ m, (importCmd.doImportGuarded env w l frm dst reposPath).trace
          = [.copyDir frm dst, .write m] ∨
        (importCmd.doImportGuarded env w l frm dst reposPath).trace
          = [.copyDir frm dst, .write m, .rebuild] := by
  unfold importCmd.doImportGuarded
  simp only
  split
  · left; rfl
  · split
    · left; rfl
    · right
      split
      · exact ⟨_, Or.inl rfl⟩
      · split
        · exact ⟨_, Or.inr rfl⟩
        · exact ⟨_, Or.inr rfl⟩

/-- The guarded part leaves the marker as it found it. -/
theorem doImportGuarded_trxLock (env : Env) (w : World) (l : LockJSON)
    (frm dst reposPath : String) :
    (importCmd.doImportGuarded env w l frm dst reposPath).world.trxLock = w.trxLock := by
  unfold importCmd.doImportGuarded
  simp only
  split
  · rfl
  · split
    · rfl
    · split
      · rfl
      · split <;> rfl

/-- The increment of a counter below 2^63 - 1 is exact, and the increment
of 2^63 - 1 is -2^63. -/
theorem int64_succ (x : Int) :
    (-9223372036854775808 ≤ x → x < 9223372036854775807 → int64 (x + 1) = x + 1) ∧
    (x = 9223372036854775807 → int64 (x + 1) = -9223372036854775808) := by
  unfold int64
  constructor
  · intro h1 h2; omega
  · intro h; omega

/-- Every manifest the guarded part writes is the loaded one with the
counter incremented, one record appended and the active profile put
through `addToProfile`. -/
theorem doImportGuarded_write (env : Env) (w : World) (l : LockJSON)
    (frm dst reposPath : String) (m : LockJSON)
    (h : Event.write m ∈ (importCmd.doImportGuarded env w l frm dst reposPath).trace) :
    m.TrxID = int64 (l.TrxID + 1) ∧ m.ActiveProfile = l.ActiveProfile ∧
    (∃ fs1, env.CopyDir frm dst w.fs = (none, fs1) ∧
      m.Repos = l.Repos ++
        [Repos.mk (importCmd.detectReposType env fs1 dst).1 (int64 (l.TrxID + 1))
          reposPath]) ∧
    (∃ i p, ProfileList.FindByName l.Profiles l.ActiveProfile = .ok (i, p) ∧
      m.Profiles = l.Profiles.set i (addToProfile p reposPath)) := by
  unfold importCmd.doImportGuarded at h
  simp only at h
  split at h
  · simp at h
  · rename_i fs1 hc
    split at h
    · simp at h
    · rename_i i p hf
      have key : m = LockJSON.mk (int64 (l.TrxID + 1)) l.ActiveProfile
          (l.Repos ++
            [Repos.mk (importCmd.detectReposType env fs1 dst).1 (int64 (l.TrxID + 1))
              reposPath])
          (l.Profiles.set i (addToProfile p reposPath)) := by
        split at h
        · simpa using h
        · split at h <;> simpa using h
      subst key
      exact ⟨rfl, rfl, ⟨fs1, hc, rfl⟩, ⟨i, p, hf, rfl⟩⟩

/-- A guarded part that returns no error made the three calls. -/
theorem doImportGuarded_ok (env : Env) (w : World) (l : LockJSON)
    (frm dst reposPath : String)
    (h : (importCmd.doImportGuarded env w l frm dst reposPath).err = none) :
    ∃ m, (importCmd.doImportGuarded env w l frm dst reposPath).trace
      = [.copyDir frm dst, .write m, .rebuild] := by
  unfold importCmd.doImportGuarded at h ⊢
  simp only at h ⊢
  split
  · rename_i hc; rw [hc] at h; simp at h
  · rename_i fs1 hc
    rw [hc] at h
    simp only at h ⊢
    split
    · rename_i hf; rw [hf] at h; simp at h
    · rename_i i p hf
      rw [hf] at h
      simp only at h ⊢
      split
      · rename_i hw; rw [hw] at h; simp at h
      · rename_i hw
        rw [hw] at h
        simp only at h ⊢
        split
        · rename_i hr; rw [hr] at h; simp at h
        · exact ⟨_, rfl⟩

/-- C1, the counterexample.  With the loaded counter at 2^63 - 1 the import
succeeds and the manifest handed to `Write` has the counter -2^63, not
2^63: the increment of line 94 wraps. -/
theorem doImport_counter_wraps :
    lockjson.Read Sample.worldMaxTrx
      = .ok (LockJSON.mk 9223372036854775807 "default"
          [Repos.mk "git" 3 "github.com/tyru/caw.vim"]
          [Profile.mk "default" ["github.com/tyru/caw.vim"]]) ∧
    (importCmd.doImport Sample.env Sample.worldMaxTrx "/src/open-browser.vim"
        "github.com/tyru/open-browser.vim").err = none ∧
    (importCmd.doImport Sample.env Sample.worldMaxTrx "/src/open-browser.vim"
        "github.com/tyru/open-browser.vim").trace
      = [.read, .trxCreate true,
          .copyDir "/src/open-browser.vim" "/volt/repos/github.com/tyru/open-browser.vim",
          .write (LockJSON.mk (-9223372036854775808) "default"
            [Repos.mk "git" 3 "github.com/tyru/caw.vim",
              Repos.mk "git" (-9223372036854775808) "github.com/tyru/open-browser.vim"]
            [Profile.mk "default"
              ["github.com/tyru/caw.vim", "github.com/tyru/open-browser.vim"]]),
          .rebuild, .trxRemove] :=
  ⟨rfl, by decide, by decide⟩

/-- C1, as amended.  When `importCmd.doImport` returns no error, it loaded a
manifest and passed exactly one manifest to `Write`.  The counter of that
manifest is the loaded counter incremented as an `int64`: exactly one
greater when the loaded counter is below 2^63 - 1, and -2^63 when it is
2^63 - 1.  Its repository list is the loaded list followed by one record
that carries the new counter and the given `reposPath`. -/
theorem doImport_success_appends_one_record (env : Env) (w : World)
    (frm reposPath : String)
    (h : (importCmd.doImport env w frm reposPath).err = none) :
    ∃ l0 m ty, lockjson.Read w = .ok l0 ∧
      (importCmd.doImport env w frm reposPath).trace
        = [.read, .trxCreate true, .copyDir frm (env.FullReposPathOf reposPath),
            .write m, .rebuild, .trxRemove] ∧
      m.TrxID = int64 (l0.TrxID + 1) ∧
      (-9223372036854775808 ≤ l0.TrxID → l0.TrxID < 9223372036854775807 →
        m.TrxID = l0.TrxID + 1) ∧
      (l0.TrxID = 9223372036854775807 → m.TrxID = -9223372036854775808) ∧
      m.Repos = l0.Repos ++ [Repos.mk ty m.TrxID reposPath] := by
  unfold importCmd.doImport at h ⊢
  split
  · rename_i h1; simp [h1] at h
  · rename_i h1
    simp only [h1] at h ⊢
    split
    · rename_i h2; simp [h2] at h
    · rename_i h2
      simp only [h2] at h ⊢
      split
      · rename_i hr; simp [hr] at h
      · rename_i l0 hr
        simp only [hr] at h ⊢
        split
        · rename_i ht; simp [ht] at h
        · rename_i w1 ht
          simp only [ht] at h ⊢
          obtain ⟨m, hm⟩ := doImportGuarded_ok env w1 l0 frm _ reposPath h
          have hmem : Event.write m ∈
              (importCmd.doImportGuarded env w1 l0 frm (env.FullReposPathOf reposPath)
                reposPath).trace := by rw [hm]; simp
          obtain ⟨ht1, _, ⟨fs1, _, hrep⟩, _⟩ := doImportGuarded_write _ _ _ _ _ _ _ hmem
          refine ⟨l0, m, (importCmd.detectReposType env fs1 (env.FullReposPathOf reposPath)).1,
            rfl, ?_, ht1, ?_, ?_, ?_⟩
          · rw [hm]; rfl
          · intro b1 b2; rw [ht1]; exact (int64_succ l0.TrxID).1 b1 b2
          · intro b; rw [ht1]; exact (int64_succ l0.TrxID).2 b
          · rw [hrep, ht1]

/-- C1, an instance: the import of `/src/open-browser.vim` in `Sample.world`,
where the loaded counter is 4 and the written counter is 5. -/
theorem doImport_success_appends_one_record_witness :
    (importCmd.doImport Sample.env Sample.world "/src/open-browser.vim"
        "github.com/tyru/open-browser.vim").err = none ∧
    ∃ l0 m ty, lockjson.Read Sample.world = .ok l0 ∧
      (importCmd.doImport Sample.env Sample.world "/src/open-browser.vim"
          "github.com/tyru/open-browser.vim").trace
        = [.read, .trxCreate true,
            .copyDir "/src/open-browser.vim"
              (Sample.env.FullReposPathOf "github.com/tyru/open-browser.vim"),
            .write m, .rebuild, .trxRemove] ∧
      m.TrxID = int64 (l0.TrxID + 1) ∧
      (-9223372036854775808 ≤ l0.TrxID → l0.TrxID < 9223372036854775807 →
        m.TrxID = l0.TrxID + 1) ∧
      (l0.TrxID = 9223372036854775807 → m.TrxID = -9223372036854775808) ∧
      m.Repos = l0.Repos ++ [Repos.mk ty m.TrxID "github.com/tyru/open-browser.vim"] :=
  ⟨by decide, doImport_success_appends_one_record _ _ _ _ (by decide)⟩

/-- The runs of `importCmd.doImport`, by the calls made.  A run that stops at
a path check, at the load or at the guard returns an error and leaves the
outside as it was; a run that passed the guard started without a marker,
made the calls of the guarded part between acquisition and release, and
ends without a marker. -/
theorem doImport_cases (env : Env) (w : World) (frm reposPath : String) :
    ((importCmd.doImport env w frm reposPath).trace = [] ∧
      (importCmd.doImport env w frm reposPath).world = w ∧
      ((w.fs.isNotExist frm = true ∧
          (importCmd.doImport env w frm reposPath).err
            = some ("no such a directory: " ++ frm)) ∨
        (w.fs.isNotExist frm = false ∧
          w.fs.isNotExist (env.FullReposPathOf reposPath) = false ∧
          (importCmd.doImport env w frm reposPath).err
            = some ("the repository already exists: " ++ reposPath)))) ∨
    ((importCmd.doImport env w frm reposPath).trace = [.read] ∧
      (importCmd.doImport env w frm reposPath).world = w ∧
      w.fs.isNotExist frm = false ∧
      w.fs.isNotExist (env.FullReposPathOf reposPath) = true ∧
      ∃ e, lockjson.Read w = .error e ∧
        (importCmd.doImport env w frm reposPath).err
          = some ("could not read lock.json: " ++ e)) ∨
    ((importCmd.doImport env w frm reposPath).trace = [.read, .trxCreate false] ∧
      (importCmd.doImport env w frm reposPath).world = w ∧ w.trxLock = true ∧
      (importCmd.doImport env w frm reposPath).err
        = some ("failed to begin transaction: " ++ "TransactionInProgress") ∧
      w.fs.isNotExist frm = false ∧
      w.fs.isNotExist (env.FullReposPathOf reposPath) = true ∧
      ∃ l, lockjson.Read w = .ok l) ∨
    (w.trxLock = false ∧ (importCmd.doImport env w frm reposPath).world.trxLock = false ∧
      w.fs.isNotExist frm = false ∧
      w.fs.isNotExist (env.FullReposPathOf reposPath) = true ∧
      ∃ g, (importCmd.doImport env w frm reposPath).trace
          = [.read, .trxCreate true] ++ g ++ [.trxRemove] ∧
        (g = [.copyDir frm (env.FullReposPathOf reposPath)] ∨
          ∃ m, g = [.copyDir frm (env.FullReposPathOf reposPath), .write m] ∨
            g = [.copyDir frm (env.FullReposPathOf reposPath), .write m, .rebuild]) ∧
        ∃ l, lockjson.Read w = .ok l) := by
  unfold importCmd.doImport
  split
  · rename_i h1
    exact Or.inl ⟨rfl, rfl, Or.inl ⟨h1, rfl⟩⟩
  · rename_i h1
    have h1f : w.fs.isNotExist frm = false := by simpa using h1
    simp only
    split
    · rename_i h2
      exact Or.inl ⟨rfl, rfl, Or.inr ⟨h1f, by simpa using h2, rfl⟩⟩
    · rename_i h2
      have h2t : w.fs.isNotExist (env.FullReposPathOf reposPath) = true := by simpa using h2
      split
      · rename_i e hr
        exact Or.inr (Or.inl ⟨rfl, rfl, h1f, h2t, e, hr, rfl⟩)
      · rename_i l hr
        split
        · rename_i e w1 ht
          unfold transaction.Create at ht
          split at ht
          · rename_i hl
            simp only [Prod.mk.injEq, Option.some.injEq] at ht
            obtain ⟨he, hw⟩ := ht
            subst he hw
            exact Or.inr (Or.inr (Or.inl ⟨rfl, rfl, hl, rfl, h1f, h2t, l, hr⟩))
          · simp at ht
        · rename_i w1 ht
          unfold transaction.Create at ht
          split at ht
          · simp at ht
          · rename_i hl
            refine Or.inr (Or.inr (Or.inr
              ⟨by simpa using hl, rfl, h1f, h2t, _, rfl, ?_, l, hr⟩))
            exact doImportGuarded_trace env w1 _ frm _ reposPath

/-- C3. When the transaction marker exists as `importCmd.doImport` starts,
the run returns an error, leaves the outside as it was (marker included),
calls nothing but the load and the failing `transaction.Create`, so
copies, writes, rebuilds and removes nothing; the error is the one of the
transaction in progress whenever `transaction.Create` is called, which
is the case once both path checks and the load have passed. -/
theorem doImport_marker_exists (env : Env) (w : World) (frm reposPath : String)
    (h : w.trxLock = true) :
    (∃ e, (importCmd.doImport env w frm reposPath).err = some e) ∧
    (importCmd.doImport env w frm reposPath).world = w ∧
    (∀ ev ∈ (importCmd.doImport env w frm reposPath).trace,
      ev = .read ∨ ev = .trxCreate false) ∧
    (Event.trxCreate false ∈ (importCmd.doImport env w frm reposPath).trace →
      (importCmd.doImport env w frm reposPath).err
        = some "failed to begin transaction: TransactionInProgress") ∧
    (w.fs.isNotExist frm = false →
      w.fs.isNotExist (env.FullReposPathOf reposPath) = true →
      (∃ l, lockjson.Read w = .ok l) →
      (importCmd.doImport env w frm reposPath).trace = [.read, .trxCreate false] ∧
      (importCmd.doImport env w frm reposPath).err
        = some "failed to begin transaction: TransactionInProgress") := by
  rcases doImport_cases env w frm reposPath with
    ⟨ht, hw, hc⟩ | ⟨ht, hw, _, _, e, hr, he⟩ | ⟨ht, hw, _, he, _, _, _⟩ | ⟨hl, _⟩
  · refine ⟨?_, hw, ?_, ?_, ?_⟩
    · rcases hc with ⟨_, he⟩ | ⟨_, _, he⟩ <;> exact ⟨_, he⟩
    · simp [ht]
    · simp [ht]
    · intro p1 p2 _
      rcases hc with ⟨q, _⟩ | ⟨_, q, _⟩
      · rw [p1] at q; exact absurd q (by decide)
      · rw [p2] at q; exact absurd q (by decide)
  · refine ⟨⟨_, he⟩, hw, ?_, ?_, ?_⟩
    · simp [ht]
    · simp [ht]
    · rintro _ _ ⟨l, hl⟩
      rw [hr] at hl; cases hl
  · refine ⟨⟨_, he⟩, hw, ?_, ?_, ?_⟩
    · simp [ht]
    · intro _; exact he
    · intro _ _ _; exact ⟨ht, he⟩
  · rw [h] at hl; exact absurd hl (by decide)

/-- C3, an instance: the same import with the marker in place. -/
theorem doImport_marker_exists_witness :
    Sample.worldLocked.trxLock = true ∧
    (importCmd.doImport Sample.env Sample.worldLocked "/src/open-browser.vim"
        "github.com/tyru/open-browser.vim").trace = [.read, .trxCreate false] ∧
    (importCmd.doImport Sample.env Sample.worldLocked "/src/open-browser.vim"
        "github.com/tyru/open-browser.vim").err
      = some "failed to begin transaction: TransactionInProgress" :=
  ⟨by decide,
    (doImport_marker_exists Sample.env Sample.worldLocked "/src/open-browser.vim"
      "github.com/tyru/open-browser.vim" (by decide)).2.2.2.2
      (by decide) (by decide) ⟨Sample.lock, rfl⟩⟩

/-- C4, the counterexample.  With a marker in place, a source that exists, a
free destination and a readable manifest, the run calls `lockjson.Read`
and only then the failing `transaction.Create`: a run whose guard
acquisition fails has read the manifest. -/
theorem doImport_read_then_failed_guard :
    (importCmd.doImport Sample.env Sample.worldLocked "/src/open-browser.vim"
        "github.com/tyru/open-browser.vim").trace = [.read, .trxCreate false] ∧
    (importCmd.doImport Sample.env Sample.worldLocked "/src/open-browser.vim"
        "github.com/tyru/open-browser.vim").err
      = some "failed to begin transaction: TransactionInProgress" := by
  decide

/-- C4, as amended.  In every run of `importCmd.doImport` the manifest is
loaded before the guard is acquired.  A run that calls nothing failed a
path check; `lockjson.Read` is called only after both path checks passed;
a run that calls `lockjson.Read` alone is one in which it failed;
`transaction.Create` is called only after `lockjson.Read` succeeded, so a
run whose acquisition fails has read the manifest, and it calls nothing
more and leaves the outside as it was; after a successful acquisition
come the copy, then possibly the write, then possibly the rebuild, and
last the release. -/
theorem doImport_call_order (env : Env) (w : World) (frm reposPath : String) :
    ((importCmd.doImport env w frm reposPath).trace = [] ∧
      (w.fs.isNotExist frm = true ∨
        w.fs.isNotExist (env.FullReposPathOf reposPath) = false)) ∨
    ((importCmd.doImport env w frm reposPath).trace = [.read] ∧
      w.fs.isNotExist frm = false ∧
      w.fs.isNotExist (env.FullReposPathOf reposPath) = true ∧
      ∃ e, lockjson.Read w = .error e) ∨
    ((importCmd.doImport env w frm reposPath).trace = [.read, .trxCreate false] ∧
      w.fs.isNotExist frm = false ∧
      w.fs.isNotExist (env.FullReposPathOf reposPath) = true ∧
      (∃ l, lockjson.Read w = .ok l) ∧
      (importCmd.doImport env w frm reposPath).world = w) ∨
    (w.fs.isNotExist frm = false ∧
      w.fs.isNotExist (env.FullReposPathOf reposPath) = true ∧
      (∃ l, lockjson.Read w = .ok l) ∧
      ((importCmd.doImport env w frm reposPath).trace
          = [.read, .trxCreate true, .copyDir frm (env.FullReposPathOf reposPath),
              .trxRemove] ∨
        ∃ m, (importCmd.doImport env w frm reposPath).trace
            = [.read, .trxCreate true, .copyDir frm (env.FullReposPathOf reposPath),
                .write m, .trxRemove] ∨
          (importCmd.doImport env w frm reposPath).trace
            = [.read, .trxCreate true, .copyDir frm (env.FullReposPathOf reposPath),
                .write m, .rebuild, .trxRemove])) := by
  rcases doImport_cases env w frm reposPath with
    ⟨ht, _, hc⟩ | ⟨ht, _, p1, p2, e, hr, _⟩ | ⟨ht, hw, _, _, p1, p2, hl⟩ |
    ⟨_, _, p1, p2, g, ht, hg, hl⟩
  · refine Or.inl ⟨ht, ?_⟩
    rcases hc with ⟨q, _⟩ | ⟨_, q, _⟩
    · exact Or.inl q
    · exact Or.inr q
  · exact Or.inr (Or.inl ⟨ht, p1, p2, e, hr⟩)
  · exact Or.inr (Or.inr (Or.inl ⟨ht, p1, p2, hl, hw⟩))
  · refine Or.inr (Or.inr (Or.inr ⟨p1, p2, hl, ?_⟩))
    rcases hg with hg | ⟨m, hg | hg⟩
    · subst hg; exact Or.inl ht
    · subst hg; exact Or.inr ⟨m, Or.inl ht⟩
    · subst hg; exact Or.inr ⟨m, Or.inr ht⟩

/-- C5. In every run of `importCmd.doImport` in which `transaction.Create`
succeeds, `transaction.Remove` is called exactly once, as the last call,
and no marker is left; and a run that starts without a marker ends
without one. -/
theorem doImport_releases_guard (env : Env) (w : World) (frm reposPath : String) :
    (Event.trxCreate true ∈ (importCmd.doImport env w frm reposPath).trace →
      (importCmd.doImport env w frm reposPath).trace.count .trxRemove = 1 ∧
      (importCmd.doImport env w frm reposPath).trace.getLast? = some .trxRemove ∧
      (importCmd.doImport env w frm reposPath).world.trxLock = false) ∧
    (w.trxLock = false →
      (importCmd.doImport env w frm reposPath).world.trxLock = false) := by
  rcases doImport_cases env w frm reposPath with
    ⟨ht, hw, _⟩ | ⟨ht, hw, _⟩ | ⟨ht, hw, _⟩ | ⟨_, hl, _, _, g, ht, hg, _⟩
  · exact ⟨by simp [ht], fun h => by rw [hw]; exact h⟩
  · exact ⟨by simp [ht], fun h => by rw [hw]; exact h⟩
  · exact ⟨by simp [ht], fun h => by rw [hw]; exact h⟩
  · refine ⟨fun _ => ⟨?_, ?_, hl⟩, fun _ => hl⟩
    · rcases hg with hg | ⟨m, hg | hg⟩ <;> subst hg <;> rw [ht] <;> simp [List.count_cons]
    · rcases hg with hg | ⟨m, hg | hg⟩ <;> subst hg <;> rw [ht] <;> rfl

/-- C5, an instance: the successful import in `Sample.world`. -/
theorem doImport_releases_guard_witness :
    (Event.trxCreate true ∈ (importCmd.doImport Sample.env Sample.world
        "/src/open-browser.vim" "github.com/tyru/open-browser.vim").trace ∧
      Sample.world.trxLock = false) ∧
    ((importCmd.doImport Sample.env Sample.world "/src/open-browser.vim"
        "github.com/tyru/open-browser.vim").trace.count .trxRemove = 1 ∧
      (importCmd.doImport Sample.env Sample.world "/src/open-browser.vim"
        "github.com/tyru/open-browser.vim").trace.getLast? = some .trxRemove ∧
      (importCmd.doImport Sample.env Sample.world "/src/open-browser.vim"
        "github.com/tyru/open-browser.vim").world.trxLock = false) :=
  ⟨⟨by decide, by decide⟩,
    (doImport_releases_guard Sample.env Sample.world "/src/open-browser.vim"
      "github.com/tyru/open-browser.vim").1 (by decide)⟩

/-- C6. When the source does not exist, or the destination
`FullReposPathOf(reposPath)` exists, `importCmd.doImport` returns an error,
"no such a directory" for a missing source and "the repository already
exists" for an existing destination of an existing source, and it makes no
call at all: no guard, no copy, no write, and the outside, the manifest on
disk included, is as it was. -/
theorem doImport_path_checks (env : Env) (w : World) (frm reposPath : String)
    (h : w.fs.isNotExist frm = true ∨
      w.fs.isNotExist (env.FullReposPathOf reposPath) = false) :
    (∃ e, (importCmd.doImport env w frm reposPath).err = some e) ∧
    (w.fs.isNotExist frm = true →
      (importCmd.doImport env w frm reposPath).err
        = some ("no such a directory: " ++ frm)) ∧
    (w.fs.isNotExist frm = false →
      (importCmd.doImport env w frm reposPath).err
        = some ("the repository already exists: " ++ reposPath)) ∧
    (importCmd.doImport env w frm reposPath).trace = [] ∧
    (importCmd.doImport env w frm reposPath).world = w := by
  rcases doImport_cases env w frm reposPath with
    ⟨ht, hw, hc⟩ | ⟨_, _, p1, p2, _⟩ | ⟨_, _, _, _, p1, p2, _⟩ | ⟨_, _, p1, p2, _⟩
  · rcases hc with ⟨q, he⟩ | ⟨q, _, he⟩
    · exact ⟨⟨_, he⟩, fun _ => he, fun q2 => absurd (q.symm.trans q2) (by decide), ht, hw⟩
    · exact ⟨⟨_, he⟩, fun q2 => absurd (q2.symm.trans q) (by decide), fun _ => he, ht, hw⟩
  · rcases h with h | h
    · rw [p1] at h; cases h
    · rw [p2] at h; cases h
  · rcases h with h | h
    · rw [p1] at h; cases h
    · rw [p2] at h; cases h
  · rcases h with h | h
    · rw [p1] at h; cases h
    · rw [p2] at h; cases h



/-- C6, an instance: a source that does not exist. -/
theorem doImport_path_checks_witness :
    (Sample.world.fs.isNotExist "/src/missing" = true ∨
      Sample.world.fs.isNotExist (Sample.env.FullReposPathOf "github.com/a/b") = false) ∧
    (importCmd.doImport Sample.env Sample.world "/src/missing" "github.com/a/b").err
      = some "no such a directory: /src/missing" ∧
    (importCmd.doImport Sample.env Sample.world "/src/missing" "github.com/a/b").trace = [] ∧
    (importCmd.doImport Sample.env Sample.world "/src/missing" "github.com/a/b").world
      = Sample.world :=
  ⟨Or.inl (by decide),
    (doImport_path_checks Sample.env Sample.world "/src/missing" "github.com/a/b"
      (Or.inl (by decide))).2.1 (by decide),
    (doImport_path_checks Sample.env Sample.world "/src/missing" "github.com/a/b"
      (Or.inl (by decide))).2.2.2⟩

/-- The position `FindByName` returns is the position of the profile it
returns, and that profile has the name asked for. -/
theorem FindByName_get (ps : List Profile) (name : String) (i : Nat) (p : Profile)
    (h : ProfileList.FindByName ps name = .ok (i, p)) :
    ps[i]? = some p ∧ p.Name = name := by
  induction ps generalizing i with
  | nil => simp [ProfileList.FindByName] at h
  | cons q qs ih =>
    unfold ProfileList.FindByName at h
    split at h
    · rename_i hq
      simp only [Except.ok.injEq, Prod.mk.injEq] at h
      obtain ⟨hi, hp⟩ := h
      subst hi hp
      exact ⟨by simp, hq⟩
    · split at h
      · rename_i j r hj
        simp only [Except.ok.injEq, Prod.mk.injEq] at h
        obtain ⟨hi, hp⟩ := h
        subst hi hp
        have := ih j hj
        exact ⟨by simpa using this.1, this.2⟩
      · cases h

/-- A manifest that `importCmd.doImport` writes was written by the guarded
part, run on the manifest that was loaded. -/
theorem doImport_write (env : Env) (w : World) (frm reposPath : String) (m : LockJSON)
    (h : Event.write m ∈ (importCmd.doImport env w frm reposPath).trace) :
    ∃ l0, lockjson.Read w = .ok l0 ∧
      Event.write m ∈ (importCmd.doImportGuarded env { w with trxLock := true } l0 frm
        (env.FullReposPathOf reposPath) reposPath).trace := by
  unfold importCmd.doImport at h
  split at h
  · simp at h
  · simp only at h
    split at h
    · simp at h
    · split at h
      · simp at h
      · rename_i l0 hr
        split at h
        · simp at h
        · rename_i w1 ht
          unfold transaction.Create at ht
          split at ht
          · simp at ht
          · simp only [Prod.mk.injEq, true_and] at ht
            subst ht
            refine ⟨l0, hr, ?_⟩
            simpa using h

/-- C7. Applied to a path that exists, `importCmd.detectReposType` returns
the git type and no error if and only if the existence check finds the
`.git` entry directly under the path, and the static type and no error
if and only if the check does not find it; the result depends on the
file tree through these two existence checks only.  The function returns
no state: it changes nothing. -/
theorem detectReposType_spec (env : Env) (fs : FS) (fullpath : String)
    (hdir : fs.isNotExist fullpath = false) :
    (importCmd.detectReposType env fs fullpath = (ReposGitType, none) ↔
      fs.isNotExist (env.Join fullpath ".git") = false) ∧
    (importCmd.detectReposType env fs fullpath = (ReposStaticType, none) ↔
      fs.isNotExist (env.Join fullpath ".git") = true) ∧
    (∀ fs2 : FS, fs2.isNotExist fullpath = fs.isNotExist fullpath →
      fs2.isNotExist (env.Join fullpath ".git") = fs.isNotExist (env.Join fullpath ".git") →
      (importCmd.detectReposType env fs2 fullpath)
        = importCmd.detectReposType env fs fullpath) := by
  refine ⟨?_, ?_, ?_⟩
  · unfold importCmd.detectReposType
    cases hg : fs.isNotExist (env.Join fullpath ".git") <;>
      simp [hdir, ReposGitType, ReposStaticType]
  · unfold importCmd.detectReposType
    cases hg : fs.isNotExist (env.Join fullpath ".git") <;>
      simp [hdir, ReposGitType, ReposStaticType]
  · intro fs2 h1 h2
    unfold importCmd.detectReposType
    rw [h1, h2]

/-- C7, an instance: the source directory of `Sample.world`. -/
theorem detectReposType_spec_witness :
    Sample.world.fs.isNotExist "/src/open-browser.vim" = false ∧
    (importCmd.detectReposType Sample.env Sample.world.fs "/src/open-browser.vim"
        = (ReposGitType, none) ↔
      Sample.world.fs.isNotExist (Sample.env.Join "/src/open-browser.vim" ".git") = false) :=
  ⟨by decide,
    (detectReposType_spec Sample.env Sample.world.fs "/src/open-browser.vim"
      (by decide)).1⟩

/-- C9. The profile step of `importCmd.doImport` is idempotent: a profile
that lists `reposPath` is returned as it is; otherwise `reposPath` is
appended once at the end; the step applied twice gives what it gives
applied once; a list without duplicates stays without duplicates; and the
profiles of every manifest that `doImport` writes are the loaded profiles
with this step applied to the active profile. -/
theorem addToProfile_idempotent (profile : Profile) (reposPath : String) :
    (reposPath ∈ profile.ReposPath → addToProfile profile reposPath = profile) ∧
    (reposPath ∉ profile.ReposPath →
      (addToProfile profile reposPath).ReposPath = profile.ReposPath ++ [reposPath]) ∧
    (addToProfile profile reposPath).Name = profile.Name ∧
    addToProfile (addToProfile profile reposPath) reposPath
      = addToProfile profile reposPath ∧
    (profile.ReposPath.Nodup → (addToProfile profile reposPath).ReposPath.Nodup) ∧
    (∀ (env : Env) (w : World) (frm : String) (m : LockJSON),
      Event.write m ∈ (importCmd.doImport env w frm reposPath).trace →
      ∃ l0 i p, lockjson.Read w = .ok l0 ∧
        ProfileList.FindByName l0.Profiles l0.ActiveProfile = .ok (i, p) ∧
        l0.Profiles[i]? = some p ∧
        m.Profiles = l0.Profiles.set i (addToProfile p reposPath)) := by
  have hin : reposPath ∈ profile.ReposPath → addToProfile profile reposPath = profile := by
    intro h
    simp [addToProfile, ReposPathList.Contains, h]
  have hout : reposPath ∉ profile.ReposPath →
      (addToProfile profile reposPath).ReposPath = profile.ReposPath ++ [reposPath] := by
    intro h
    simp [addToProfile, ReposPathList.Contains, h]
  refine ⟨hin, hout, ?_, ?_, ?_, ?_⟩
  · unfold addToProfile
    split <;> rfl
  · by_cases h : reposPath ∈ profile.ReposPath
    · rw [hin h, hin h]
    · simp [addToProfile, ReposPathList.Contains, h]
  · intro hn
    by_cases h : reposPath ∈ profile.ReposPath
    · rw [hin h]; exact hn
    · rw [hout h]
      exact List.Nodup.append hn (List.nodup_singleton _) (by simpa using h)
  · intro env w frm m hm
    obtain ⟨l0, hr, hg⟩ := doImport_write env w frm reposPath m hm
    obtain ⟨_, _, _, i, p, hf, hp⟩ := doImportGuarded_write _ _ _ _ _ _ _ hg
    exact ⟨l0, i, p, hr, hf, (FindByName_get _ _ _ _ hf).1, hp⟩

/-- C9, an instance: the profile `default` of `Sample.lock`. -/
theorem addToProfile_idempotent_witness :
    "github.com/tyru/caw.vim" ∈ (Profile.mk "default" ["github.com/tyru/caw.vim"]).ReposPath ∧
    addToProfile (Profile.mk "default" ["github.com/tyru/caw.vim"]) "github.com/tyru/caw.vim"
      = Profile.mk "default" ["github.com/tyru/caw.vim"] ∧
    (addToProfile (Profile.mk "default" ["github.com/tyru/caw.vim"]) "github.com/a/b").ReposPath
      = ["github.com/tyru/caw.vim"] ++ ["github.com/a/b"] :=
  ⟨by decide,
    (addToProfile_idempotent (Profile.mk "default" ["github.com/tyru/caw.vim"])
      "github.com/tyru/caw.vim").1 (by decide),
    (addToProfile_idempotent (Profile.mk "default" ["github.com/tyru/caw.vim"])
      "github.com/a/b").2.1 (by decide)⟩

/-- When every argument normalizes, the loop returns the identifiers
gathered so far followed by the normalized arguments, in order. -/
theorem normalizeLoop_ok (env : Env) (ids acc : List String)
    (h : ∀ a ∈ ids, (env.NormalizeRepos a).2 = none) :
    enableCmd.normalizeLoop env ids acc
      = .ok (acc ++ ids.map (fun a => (env.NormalizeRepos a).1)) := by
  induction ids generalizing acc with
  | nil => simp [enableCmd.normalizeLoop]
  | cons a rest ih =>
    have ha : (env.NormalizeRepos a).2 = none := h a (List.mem_cons_self _ _)
    have hr : ∀ b ∈ rest, (env.NormalizeRepos b).2 = none :=
      fun b hb => h b (List.mem_cons_of_mem _ hb)
    unfold enableCmd.normalizeLoop
    split
    · rename_i e he
      rw [he] at ha; cases ha
    · rename_i reposPath he
      rw [ih _ hr]
      simp [he]

/-- When some argument does not normalize, the loop returns an error that
is not the help sentinel. -/
theorem normalizeLoop_error (env : Env) (ids acc : List String)
    (h : ∃ a ∈ ids, (env.NormalizeRepos a).2 ≠ none) :
    ∃ e, enableCmd.normalizeLoop env ids acc = .error (.other e) := by
  induction ids generalizing acc with
  | nil => obtain ⟨a, ha, _⟩ := h; cases ha
  | cons a rest ih =>
    unfold enableCmd.normalizeLoop
    split
    · rename_i e _
      exact ⟨e, rfl⟩
    · rename_i reposPath he
      obtain ⟨b, hb, hne⟩ := h
      rcases List.mem_cons.mp hb with hba | hbr
      · subst hba
        rw [he] at hne
        exact absurd rfl hne
      · exact ih _ ⟨b, hbr, hne⟩

/-- C8, the counterexample.  The argument list `-h a/b` is not empty, and
`Enable` returns 0 without calling `profileCmd.doAdd`: parsing the flags
ran `Usage`, which sets `enableFlags.helped`, and `parseArgs` returns
`ErrShowedHelp`.  The same holds for `-h` alone, where no identifier is
given. -/
theorem Enable_help_returns_zero :
    (Enable Sample.env Sample.world ["-h", "a/b"]).code = 0 ∧
    (Enable Sample.env Sample.world ["-h", "a/b"]).trace = [] ∧
    (Sample.env.NormalizeRepos "-h").2 = none ∧
    (Sample.env.NormalizeRepos "a/b").2 = none ∧
    (Enable Sample.env Sample.world ["-h"]).code = 0 ∧
    (Enable Sample.env Sample.world ["-h"]).trace = [] := by
  decide

/-- C8, as amended.  When parsing the flags ran `Usage`, `Enable` returns 0
and calls nothing.  Otherwise, with the identifiers that the parse left:
if at least one identifier is given and every identifier normalizes,
`Enable` calls `profileCmd.doAdd` exactly once, on `-current` followed by
the normalized identifiers in the order given, and returns 0 when that
call succeeds and 11 when it fails; if no identifier is given or one
does not normalize, `Enable` returns 10 and calls nothing. -/
theorem Enable_spec (env : Env) (w : World) (args : List String) :
    ((env.flagParse args).helped = true →
      (Enable env w args).code = 0 ∧ (Enable env w args).trace = [] ∧
      (Enable env w args).world = w) ∧
    ((env.flagParse args).helped = false →
      (((env.flagParse args).args ≠ [] ∧
          ∀ a ∈ (env.flagParse args).args, (env.NormalizeRepos a).2 = none) →
        (Enable env w args).trace
          = [.doAdd ("-current" ::
              (env.flagParse args).args.map (fun a => (env.NormalizeRepos a).1))] ∧
        (Enable env w args).world
          = (env.doAdd ("-current" ::
              (env.flagParse args).args.map (fun a => (env.NormalizeRepos a).1)) w).2 ∧
        ((env.doAdd ("-current" ::
              (env.flagParse args).args.map (fun a => (env.NormalizeRepos a).1)) w).1 = none →
          (Enable env w args).code = 0) ∧
        ((env.doAdd ("-current" ::
              (env.flagParse args).args.map (fun a => (env.NormalizeRepos a).1)) w).1 ≠ none →
          (Enable env w args).code = 11)) ∧
      (((env.flagParse args).args = [] ∨
          ∃ a ∈ (env.flagParse args).args, (env.NormalizeRepos a).2 ≠ none) →
        (Enable env w args).code = 10 ∧ (Enable env w args).trace = [] ∧
        (Enable env w args).world = w)) := by
  refine ⟨?_, ?_⟩
  · intro hh
    have hparse : enableCmd.parseArgs env args = .error .ErrShowedHelp := by
      simp [enableCmd.parseArgs, hh]
    unfold Enable
    rw [hparse]
    exact ⟨rfl, rfl, rfl⟩
  intro hp
  constructor
  · rintro ⟨hne, hall⟩
    have hlen : ¬ (env.flagParse args).args.length = 0 := by
      simpa [List.length_eq_zero] using hne
    have hparse : enableCmd.parseArgs env args
        = .ok ((env.flagParse args).args.map (fun a => (env.NormalizeRepos a).1)) := by
      simp only [enableCmd.parseArgs, hp, hlen, if_false, Bool.false_eq_true]
      rw [normalizeLoop_ok env _ [] hall]
      simp
    unfold Enable
    rw [hparse]
    simp only
    split
    · rename_i e w1 hd
      rw [hd]
      exact ⟨rfl, rfl, fun h => Option.noConfusion h, fun _ => rfl⟩
    · rename_i w1 hd
      rw [hd]
      exact ⟨rfl, rfl, fun _ => rfl, fun h => absurd rfl h⟩
  · intro h
    have hparse : ∃ e, enableCmd.parseArgs env args = .error (.other e) := by
      rcases h with h | h
      · exact ⟨"repository was not given", by simp [enableCmd.parseArgs, hp, h]⟩
      · by_cases hlen : (env.flagParse args).args.length = 0
        · exact ⟨"repository was not given", by
            simp only [enableCmd.parseArgs, hp, hlen, if_true, if_false, Bool.false_eq_true]⟩
        · obtain ⟨e, he⟩ := normalizeLoop_error env _ [] h
          exact ⟨e, by simp only [enableCmd.parseArgs, hp, hlen, if_false,
            Bool.false_eq_true, he]⟩
    obtain ⟨e, he⟩ := hparse
    unfold Enable
    rw [he]
    exact ⟨rfl, rfl, rfl⟩

/-- C8, an instance: two identifiers that normalize, and a call for help. -/
theorem Enable_spec_witness :
    ((Sample.env.flagParse ["tyru/caw.vim", "a/b"]).helped = false ∧
      (Sample.env.flagParse ["tyru/caw.vim", "a/b"]).args ≠ [] ∧
      ∀ a ∈ (Sample.env.flagParse ["tyru/caw.vim", "a/b"]).args,
        (Sample.env.NormalizeRepos a).2 = none) ∧
    (Enable Sample.env Sample.world ["tyru/caw.vim", "a/b"]).trace
      = [.doAdd ("-current" :: (Sample.env.flagParse ["tyru/caw.vim", "a/b"]).args.map
          (fun a => (Sample.env.NormalizeRepos a).1))] ∧
    (Sample.env.flagParse ["-h", "a/b"]).helped = true ∧
    (Enable Sample.env Sample.world ["-h", "a/b"]).code = 0 :=
  ⟨⟨by decide, by decide, by decide⟩,
    (((Enable_spec Sample.env Sample.world ["tyru/caw.vim", "a/b"]).2 (by decide)).1
      ⟨by decide, by decide⟩).1,
    by decide,
    ((Enable_spec Sample.env Sample.world ["-h", "a/b"]).1 (by decide)).1⟩

/-- C2, on the code.  A single-argument invocation never returns 0 and
never calls anything: the source handed to `doImport` is the destination
`FullReposPathOf(reposPath)` itself, so either the source is missing or
the destination exists.  With an argument that normalizes the exit code
is 11, and for a repository that exists at its full repos path the error
is "the repository already exists". -/
theorem Import_first_form_fails (env : Env) (w : World) (args : List String) (a : String)
    (h : (env.flagParse args).args = [a]) :
    (Import env w args).code ≠ 0 ∧
    (Import env w args).trace = [] ∧
    (Import env w args).world = w ∧
    ((env.NormalizeRepos a).2 = none → (Import env w args).code = 11) ∧
    ((env.NormalizeRepos a).2 = none →
      w.fs.isNotExist (env.FullReposPathOf (env.NormalizeRepos a).1) = false →
      (importCmd.doImport env w (env.FullReposPathOf (env.NormalizeRepos a).1)
          (env.NormalizeRepos a).1).err
        = some ("the repository already exists: " ++ (env.NormalizeRepos a).1)) := by
  have hparse : importCmd.parseArgs env args
      = (env.FullReposPathOf (env.NormalizeRepos a).1, (env.NormalizeRepos a).1,
          (env.NormalizeRepos a).2) := by
    simp [importCmd.parseArgs, h]
  have key : (∃ e, (importCmd.doImport env w
        (env.FullReposPathOf (env.NormalizeRepos a).1) (env.NormalizeRepos a).1).err = some e) ∧
      (w.fs.isNotExist (env.FullReposPathOf (env.NormalizeRepos a).1) = false →
        (importCmd.doImport env w (env.FullReposPathOf (env.NormalizeRepos a).1)
            (env.NormalizeRepos a).1).err
          = some ("the repository already exists: " ++ (env.NormalizeRepos a).1)) ∧
      (importCmd.doImport env w (env.FullReposPathOf (env.NormalizeRepos a).1)
        (env.NormalizeRepos a).1).trace = [] ∧
      (importCmd.doImport env w (env.FullReposPathOf (env.NormalizeRepos a).1)
        (env.NormalizeRepos a).1).world = w := by
    rcases doImport_cases env w (env.FullReposPathOf (env.NormalizeRepos a).1)
        (env.NormalizeRepos a).1 with
      ⟨ht, hw, hc⟩ | ⟨_, _, p1, p2, _⟩ | ⟨_, _, _, _, p1, p2, _⟩ | ⟨_, _, p1, p2, _⟩
    · rcases hc with ⟨q, he⟩ | ⟨_, _, he⟩
      · exact ⟨⟨_, he⟩, fun q2 => absurd (q.symm.trans q2) (by decide), ht, hw⟩
      · exact ⟨⟨_, he⟩, fun _ => he, ht, hw⟩
    · exact absurd (p1.symm.trans p2) (by decide)
    · exact absurd (p1.symm.trans p2) (by decide)
    · exact absurd (p1.symm.trans p2) (by decide)
  obtain ⟨⟨e, he⟩, hex, ht, hw⟩ := key
  cases hn : (env.NormalizeRepos a).2 with
  | some e2 =>
    have hI : Import env w args = ⟨10, w, []⟩ := by
      unfold Import; rw [hparse, hn]
    rw [hI]
    exact ⟨by simp, rfl, rfl, fun h => Option.noConfusion h, fun h => Option.noConfusion h⟩
  | none =>
    have hI : Import env w args = ⟨11, w, []⟩ := by
      unfold Import; rw [hparse, hn]; simp only [he, ht, hw]
    rw [hI]
    exact ⟨by simp, rfl, rfl, fun _ => rfl, fun _ hx => hex hx⟩

/-- C2, an instance: the repository exists at its full repos path, nothing
is in progress and every collaborator would succeed; the exit code is 11. -/
theorem Import_first_form_fails_witness :
    (Sample.env.flagParse ["tyru/caw.vim"]).args = ["tyru/caw.vim"] ∧
    (Import Sample.env Sample.worldInstalled ["tyru/caw.vim"]).code = 11 ∧
    (Import Sample.env Sample.worldInstalled ["tyru/caw.vim"]).trace = [] :=
  ⟨by decide,
    (Import_first_form_fails Sample.env Sample.worldInstalled ["tyru/caw.vim"]
      "tyru/caw.vim" (by decide)).2.2.2.1 (by decide),
    (Import_first_form_fails Sample.env Sample.worldInstalled ["tyru/caw.vim"]
      "tyru/caw.vim" (by decide)).2.1⟩

/-- The type of the record that `importCmd.doImport` appends: the result of
`detectReposType` on the tree the copy left, whether or not it came with
an error.  It is the git or the static type when the destination exists
after the copy, and the empty string when it does not. -/
theorem doImport_appended_type (env : Env) (w : World) (frm reposPath : String)
    (m : LockJSON)
    (h : Event.write m ∈ (importCmd.doImport env w frm reposPath).trace) :
    ∃ l0 fs1 ty, lockjson.Read w = .ok l0 ∧
      env.CopyDir frm (env.FullReposPathOf reposPath) w.fs = (none, fs1) ∧
      m.Repos = l0.Repos ++ [Repos.mk ty (int64 (l0.TrxID + 1)) reposPath] ∧
      (fs1.isNotExist (env.FullReposPathOf reposPath) = false →
        ty = ReposGitType ∨ ty = ReposStaticType) ∧
      (fs1.isNotExist (env.FullReposPathOf reposPath) = true → ty = "") := by
  obtain ⟨l0, hr, hg⟩ := doImport_write env w frm reposPath m h
  obtain ⟨_, _, ⟨fs1, hc, hrep⟩, _⟩ := doImportGuarded_write _ _ _ _ _ _ _ hg
  refine ⟨l0, fs1, _, hr, hc, hrep, ?_, ?_⟩
  · intro hd
    unfold importCmd.detectReposType
    rw [hd]
    cases fs1.isNotExist (env.Join (env.FullReposPathOf reposPath) ".git") <;> simp
  · intro hd
    unfold importCmd.detectReposType
    rw [hd]
    simp

/-- C10, on the code.  With a copy that reports success while the
destination does not exist when it is classified, `detectReposType`
fails, its error is dropped, and the run succeeds with a record of
empty type appended and written. -/
theorem doImport_appends_empty_type :
    (importCmd.doImport Sample.envNoDst Sample.world "/src/open-browser.vim"
        "github.com/tyru/open-browser.vim").err = none ∧
    (importCmd.doImport Sample.envNoDst Sample.world "/src/open-browser.vim"
        "github.com/tyru/open-browser.vim").trace
      = [.read, .trxCreate true,
          .copyDir "/src/open-browser.vim" "/volt/repos/github.com/tyru/open-browser.vim",
          .write (LockJSON.mk 5 "default"
            [Repos.mk "git" 3 "github.com/tyru/caw.vim",
              Repos.mk "" 5 "github.com/tyru/open-browser.vim"]
            [Profile.mk "default"
              ["github.com/tyru/caw.vim", "github.com/tyru/open-browser.vim"]]),
          .rebuild, .trxRemove] ∧
    (importCmd.detectReposType Sample.envNoDst Sample.world.fs
        "/volt/repos/github.com/tyru/open-browser.vim")
      = ("", some "no such a directory: /volt/repos/github.com/tyru/open-browser.vim") := by
  decide

end Volt
